import Mathlib

/-!
Verification of the warehouse inventory tracker.

The development shallowly embeds the item list management module of the
repository: the `InventoryItem` record and demonstration dataset, the
add/edit/delete handlers and the localStorage load/save effects from
`InventoryDashboard`, the search filter, the sortable table comparator and
`isLowStock` from `InventoryTable`, and the form validation and submission
logic from `InventoryForm`.

Modelling conventions:
* JavaScript numbers holding integer quantities are modelled as `Int`.
* TypeScript optional fields (`condition_notes?`, `supplier?`) are `Option String`.
* `Date.now()` is an external input: the handlers take the current timestamp
  as a `Nat` argument.
* `localStorage` is modelled as the value it holds; `JSON.parse` is an
  external partial function `String → Option (List InventoryItem)` (it throws
  on unparsable input, modelled by `none`), and `JSON.stringify` is modelled
  up to its injectivity, i.e. the store holds the serialized collection value.
* JavaScript string operations (`toLowerCase`, `includes`, `trim`, `<` on
  strings) are modelled on `List Char`; `toLowerCase` is modelled on the
  ASCII range, which covers every string the repository manipulates, and
  string comparison is code-point lexicographic exactly as JS compares
  UTF-16 code units on the Basic Multilingual Plane.
-/

namespace Warehouse

/-- InventoryItem interface from `InventoryDashboard` (src/unnamed/part_000). -/
structure InventoryItem where
  id : String
  sku : String
  item_name : String
  quantity_counted : Int
  unit_of_measure : String
  location_in_warehouse : String
  category : String
  condition_notes : Option String
  last_count_date : String
  reorder_level : Int
  supplier : Option String
deriving DecidableEq

/-- Omit<InventoryItem, 'id'>: the candidate fields passed to the add/edit handlers. -/
structure ItemFields where
  sku : String
  item_name : String
  quantity_counted : Int
  unit_of_measure : String
  location_in_warehouse : String
  category : String
  condition_notes : Option String
  last_count_date : String
  reorder_level : Int
  supplier : Option String
deriving DecidableEq

/-- The spread `{ ...itemData, id }` used by both handlers. -/
def withId (c : ItemFields) (idv : String) : InventoryItem :=
  { id := idv
    sku := c.sku
    item_name := c.item_name
    quantity_counted := c.quantity_counted
    unit_of_measure := c.unit_of_measure
    location_in_warehouse := c.location_in_warehouse
    category := c.category
    condition_notes := c.condition_notes
    last_count_date := c.last_count_date
    reorder_level := c.reorder_level
    supplier := c.supplier }

/-- Projection of an item back to its non-id fields. -/
def InventoryItem.toFields (it : InventoryItem) : ItemFields :=
  { sku := it.sku
    item_name := it.item_name
    quantity_counted := it.quantity_counted
    unit_of_measure := it.unit_of_measure
    location_in_warehouse := it.location_in_warehouse
    category := it.category
    condition_notes := it.condition_notes
    last_count_date := it.last_count_date
    reorder_level := it.reorder_level
    supplier := it.supplier }

/-- Sample item with id '1' from `sampleData`. -/
def item1 : InventoryItem :=
  { id := "1"
    sku := "SKU001"
    item_name := "Industrial Safety Helmet"
    quantity_counted := 45
    unit_of_measure := "pcs"
    location_in_warehouse := "Aisle 1, Shelf A"
    category := "Safety Gear"
    condition_notes := some "Good condition, regular stock rotation"
    last_count_date := "2024-01-15"
    reorder_level := 10
    supplier := some "SafetyFirst Corp" }

/-- Sample item with id '2' from `sampleData`. -/
def item2 : InventoryItem :=
  { id := "2"
    sku := "SKU002"
    item_name := "Heavy Duty Work Gloves"
    quantity_counted := 5
    unit_of_measure := "pairs"
    location_in_warehouse := "Aisle 1, Shelf B"
    category := "Safety Gear"
    condition_notes := some "Various sizes available"
    last_count_date := "2024-01-14"
    reorder_level := 20
    supplier := some "ProtectCo" }

/-- Sample item with id '3' from `sampleData`. -/
def item3 : InventoryItem :=
  { id := "3"
    sku := "SKU003"
    item_name := "Forklift Battery"
    quantity_counted := 8
    unit_of_measure := "units"
    location_in_warehouse := "Aisle 3, Floor Storage"
    category := "Equipment"
    condition_notes := some "Requires special handling"
    last_count_date := "2024-01-13"
    reorder_level := 2
    supplier := some "PowerTech Ltd" }

/-- Sample item with id '4' from `sampleData`. -/
def item4 : InventoryItem :=
  { id := "4"
    sku := "SKU004"
    item_name := "Cardboard Boxes (Large)"
    quantity_counted := 500
    unit_of_measure := "boxes"
    location_in_warehouse := "Aisle 5, Bulk Storage"
    category := "Packaging"
    condition_notes := some "Stacked high, good condition"
    last_count_date := "2024-01-12"
    reorder_level := 100
    supplier := some "PackRight Inc" }

/-- Sample item with id '5' from `sampleData`. -/
def item5 : InventoryItem :=
  { id := "5"
    sku := "SKU005"
    item_name := "Cleaning Solvent"
    quantity_counted := 25
    unit_of_measure := "gallons"
    location_in_warehouse := "Chemical Storage, Zone C"
    category := "Chemicals"
    condition_notes := some "Hazardous material - proper ventilation required"
    last_count_date := "2024-01-11"
    reorder_level := 5
    supplier := some "ChemClean Solutions" }

/-- The five-item demonstration dataset `sampleData`. -/
def sampleData : List InventoryItem := [item1, item2, item3, item4, item5]

/-- Handler `handleAddItem`: builds `{ ...itemData, id: Date.now().toString() }` and
prepends it with `setItems(prev => [newItem, ...prev])`. `now` is the value of
`Date.now()` when the handler runs. -/
def handleAddItem (now : Nat) (itemData : ItemFields) (items : List InventoryItem) :
    List InventoryItem :=
  withId itemData (toString now) :: items

/-- Handler `handleEditItem`: returns immediately when `editingItem` is null,
otherwise maps the collection, replacing each item whose id equals
`editingItem.id` by `{ ...itemData, id: editingItem.id }`. -/
def handleEditItem (editingItem : Option InventoryItem) (itemData : ItemFields)
    (items : List InventoryItem) : List InventoryItem :=
  match editingItem with
  | none => items
  | some e => items.map fun it => if it.id = e.id then withId itemData e.id else it

/-- Handler `handleDeleteItem`: `setItems(prev => prev.filter(item => item.id !== id))`. -/
def handleDeleteItem (idv : String) (items : List InventoryItem) : List InventoryItem :=
  items.filter fun it => it.id != idv

/-- Startup loader `fetchItems`. The stored entry is `Option String`
(`localStorage.getItem` returns null or a string); `parseJson` is the external
`JSON.parse`, returning `none` when it throws. The JS conditional
`savedItems ? JSON.parse(savedItems) : sampleData` treats the empty string as
falsy. When `JSON.parse` throws, the catch block shows an error toast and the
state keeps its initial value `[]`. Returns the resulting collection together
with whether the error toast was shown. -/
def fetchItems (saved : Option String)
    (parseJson : String → Option (List InventoryItem)) :
    List InventoryItem × Bool :=
  match saved with
  | none => (sampleData, false)
  | some s =>
    if s = "" then (sampleData, false)
    else
      match parseJson s with
      | some its => (its, false)
      | none => ([], true)

/-- The save `useEffect`: `if (items.length > 0) localStorage.setItem(...)`.
The store is modelled by the collection value it holds (`JSON.stringify`
composed with the matching parse is the identity on collections). -/
def saveEffect (items : List InventoryItem)
    (storage : Option (List InventoryItem)) : Option (List InventoryItem) :=
  if items.length > 0 then some items else storage

/-- `isLowStock` from `InventoryTable` (src/unnamed/part_001). -/
def isLowStock (item : InventoryItem) : Bool :=
  item.quantity_counted ≤ item.reorder_level

/-- `lowStockItems` from `InventoryDashboard`:
`items.filter(item => item.quantity_counted <= item.reorder_level)`. -/
def lowStockItems (items : List InventoryItem) : List InventoryItem :=
  items.filter fun item => item.quantity_counted ≤ item.reorder_level

/-- Candidate fields for the spec scenario item "SKU006 Pallet Wrap"
(quantity 3, reorder level 5); also reused as a generic concrete candidate. -/
def c9Fields : ItemFields :=
  { sku := "SKU006"
    item_name := "Pallet Wrap"
    quantity_counted := 3
    unit_of_measure := "rolls"
    location_in_warehouse := ""
    category := "Packaging"
    condition_notes := none
    last_count_date := "2024-02-01"
    reorder_level := 5
    supplier := none }

/-- Update contract as the specification words it, for comparison with the
code: replace the item with matching id, or fail with `NotFoundError`
(modelled by `none`) when no item has that id. -/
def updateAsSpecified (idv : String) (c : ItemFields) (items : List InventoryItem) :
    Option (List InventoryItem) :=
  if items.any (fun it => it.id == idv) then
    some (items.map fun it => if it.id = idv then withId c idv else it)
  else none

/-- Length is preserved by the edit handler when an editing target is set. -/
theorem handleEditItem_length (e : InventoryItem) (c : ItemFields)
    (items : List InventoryItem) :
    (handleEditItem (some e) c items).length = items.length := by
  simp [handleEditItem]

/-- C1 counterexample: id generation is `Date.now().toString()`, so two adds
within the same millisecond (both observing `Date.now() = 100`) produce the
same id "100"; the second freshly generated id equals an id already in the
collection, refuting collision-freedom within the process lifetime. -/
theorem add_id_not_collision_free :
    (handleAddItem 100 c9Fields []).map InventoryItem.id = ["100"] ∧
    (handleAddItem 100 c9Fields (handleAddItem 100 c9Fields [])).map InventoryItem.id
        = ["100", "100"] ∧
    ¬ ((handleAddItem 100 c9Fields (handleAddItem 100 c9Fields [])).map
        InventoryItem.id).Nodup := by
  refine ⟨by decide, by decide, by decide⟩

/-- C1 (amended): `add` prepends one item whose id is the decimal string of the
current timestamp and whose other fields equal the candidate, and the
collection grows by exactly one; the new id is distinct from every existing id
exactly when the timestamp string is not already an id in the collection. -/
theorem add_prepends_timestamp_id (now : Nat) (c : ItemFields)
    (items : List InventoryItem) :
    handleAddItem now c items = withId c (toString now) :: items ∧
    (handleAddItem now c items).length = items.length + 1 ∧
    (withId c (toString now)).toFields = c ∧
    (((handleAddItem now c items).map InventoryItem.id).Nodup ↔
      toString now ∉ items.map InventoryItem.id ∧
        (items.map InventoryItem.id).Nodup) := by
  refine ⟨rfl, by simp [handleAddItem], rfl, ?_⟩
  simp [handleAddItem, withId, List.nodup_cons]

/-- C1 witness: adding at timestamp 7 to the demonstration dataset grows it to
six items and yields pairwise distinct ids. -/
theorem add_prepends_timestamp_id_inst :
    (handleAddItem 7 c9Fields sampleData).length = sampleData.length + 1 ∧
    ((handleAddItem 7 c9Fields sampleData).map InventoryItem.id).Nodup :=
  ⟨(add_prepends_timestamp_id 7 c9Fields sampleData).2.1,
   (add_prepends_timestamp_id 7 c9Fields sampleData).2.2.2.mpr (by decide)⟩

/-- C2 counterexample: updating with an id ("99") that no item carries is a
silent no-op in the code — the handler returns the collection unchanged and
never signals an error — while the specified contract demands a
`NotFoundError` failure (`none`). -/
theorem update_missing_id_silent_noop :
    updateAsSpecified "99" c9Fields sampleData = none ∧
    handleEditItem (some (withId c9Fields "99")) c9Fields sampleData = sampleData := by
  refine ⟨by decide, by decide⟩

/-- C2 (amended): `update` maps the collection, replacing every item whose id
matches the editing target by the candidate fields with the preserved id, and
leaving all others in place; when no item has that id the collection is
returned unchanged and no error is raised. -/
theorem update_replaces_matching (e : InventoryItem) (c : ItemFields)
    (items : List InventoryItem) :
    handleEditItem (some e) c items
        = items.map (fun it => if it.id = e.id then withId c e.id else it) ∧
    ((∀ it ∈ items, it.id ≠ e.id) → handleEditItem (some e) c items = items) ∧
    (withId c e.id).id = e.id ∧ (withId c e.id).toFields = c := by
  refine ⟨rfl, ?_, rfl, rfl⟩
  intro h
  show items.map (fun it => if it.id = e.id then withId c e.id else it) = items
  calc items.map (fun it => if it.id = e.id then withId c e.id else it)
      = items.map id := List.map_congr_left (fun it hit => by simp [if_neg (h it hit)])
    _ = items := items.map_id

/-- C2 witness: editing with target id "99", absent from the demonstration
dataset, leaves the dataset unchanged. -/
theorem update_replaces_matching_inst :
    handleEditItem (some (withId c9Fields "99")) c9Fields sampleData = sampleData :=
  (update_replaces_matching (withId c9Fields "99") c9Fields sampleData).2.1 (by decide)

/-- C3 counterexample: when the stored entry is present but `JSON.parse` throws
on it, the catch block shows the error toast and the collection stays empty —
it is not seeded with the five-item demonstration dataset. -/
theorem load_parse_failure_not_seeded :
    fetchItems (some "not json") (fun _ => none) = ([], true) ∧
    ([] : List InventoryItem) ≠ sampleData := by
  refine ⟨rfl, by decide⟩

/-- C3 (amended): `load` seeds with the demonstration dataset when the stored
entry is absent (or the empty string, which is falsy); when the entry is
present and unparsable the error is caught, the error toast is shown and the
collection is left empty; when it parses, the parsed items are used. -/
theorem load_fallback_behavior (parseJson : String → Option (List InventoryItem))
    (s : String) :
    fetchItems none parseJson = (sampleData, false) ∧
    fetchItems (some "") parseJson = (sampleData, false) ∧
    (s ≠ "" → parseJson s = none → fetchItems (some s) parseJson = ([], true)) ∧
    (s ≠ "" → ∀ its, parseJson s = some its →
      fetchItems (some s) parseJson = (its, false)) := by
  refine ⟨rfl, rfl, ?_, ?_⟩
  · intro hs hp
    simp [fetchItems, hs, hp]
  · intro hs its hp
    simp [fetchItems, hs, hp]

/-- C3 witness: a present but unparsable entry yields the empty collection and
the error toast. -/
theorem load_fallback_behavior_inst :
    fetchItems (some "not json") (fun _ => none) = ([], true) :=
  (load_fallback_behavior (fun _ => none) "not json").2.2.1 (by decide) rfl

/-- C4 counterexample: deleting the only item empties the collection, and the
guarded save effect (`if (items.length > 0)`) then performs no write, so the
store still holds the stale one-item serialization instead of the current
empty collection. -/
theorem save_skips_empty_collection :
    handleDeleteItem "1" [item1] = [] ∧
    saveEffect (handleDeleteItem "1" [item1]) (some [item1]) = some [item1] ∧
    some [item1] ≠ some ([] : List InventoryItem) := by
  refine ⟨by decide, by decide, by decide⟩

/-- C4 (amended): after a mutation the store holds the serialization of the
current collection whenever that collection is non-empty; a mutation that
empties the collection performs no write and the store keeps its previous
contents. -/
theorem save_effect_behavior (items : List InventoryItem)
    (storage : Option (List InventoryItem)) :
    (items ≠ [] → saveEffect items storage = some items) ∧
    saveEffect [] storage = storage := by
  refine ⟨?_, rfl⟩
  intro h
  rw [saveEffect, if_pos]
  exact List.length_pos.mpr h

/-- C4 witness: saving a one-item collection over an empty store writes it. -/
theorem save_effect_behavior_inst : saveEffect [item1] none = some [item1] :=
  (save_effect_behavior [item1] none).1 (by decide)

/-- C5: an item is classified low-stock exactly when its counted quantity is at
or below its reorder level; the boundary is inclusive, quantity one above the
reorder level is not low-stock, and the dashboard's low-stock list selects
exactly the items satisfying this predicate. -/
theorem low_stock_iff_le_reorder (item : InventoryItem) :
    (isLowStock item = true ↔ item.quantity_counted ≤ item.reorder_level) ∧
    (item.quantity_counted = item.reorder_level → isLowStock item = true) ∧
    (item.quantity_counted = item.reorder_level + 1 → isLowStock item = false) ∧
    ∀ items : List InventoryItem,
      item ∈ lowStockItems items ↔
        item ∈ items ∧ item.quantity_counted ≤ item.reorder_level := by
  refine ⟨by simp [isLowStock], ?_, ?_, ?_⟩
  · intro h
    simp [isLowStock, h]
  · intro h
    simp only [isLowStock, h, decide_eq_false_iff_not]
    omega
  · intro items
    simp [lowStockItems, List.mem_filter]

/-- C5 witness: an item with quantity equal to its reorder level is low-stock. -/
theorem low_stock_iff_le_reorder_inst :
    isLowStock { item2 with quantity_counted := 7, reorder_level := 7 } = true :=
  (low_stock_iff_le_reorder { item2 with quantity_counted := 7, reorder_level := 7 }).2.1 rfl

/-- C9 counterexample: the forklift battery (SKU003, quantity 8, reorder level
2) is not low-stock, so after adding "SKU006 Pallet Wrap" (quantity 3, reorder
5) the low-stock count is 2 — the gloves and the new item — not 3 as the
scenario states. -/
theorem scenario_low_stock_actual_counts :
    isLowStock item3 = false ∧
    (lowStockItems (handleAddItem 999 c9Fields sampleData)).length = 2 ∧
    (lowStockItems (handleAddItem 999 c9Fields sampleData)).length ≠ 3 := by
  refine ⟨by decide, by decide, by decide⟩

/-- C9 (amended): starting from the demonstration dataset (low-stock count 1:
the gloves), adding "SKU006 Pallet Wrap" qty 3 reorder 5 makes the low-stock
count 2, and deleting the SKU003 item (not low-stock) leaves the count at 2. -/
theorem scenario_low_stock_amended :
    (lowStockItems sampleData).length = 1 ∧
    (lowStockItems (handleAddItem 999 c9Fields sampleData)).length = 2 ∧
    (lowStockItems (handleDeleteItem "3" (handleAddItem 999 c9Fields sampleData))).length
        = 2 := by
  refine ⟨by decide, by decide, by decide⟩

/-- C10: updating an item leaves the collection's length and order unchanged —
each position keeps its original item when its id differs from the target, and
the target's position holds the replacement with the preserved id, so the
updated item stays in place rather than moving to the front. -/
theorem update_frame_preserves_order (i : InventoryItem) (c : ItemFields)
    (items : List InventoryItem) (_hmem : i ∈ items) :
    (handleEditItem (some i) c items).length = items.length ∧
    ∀ k : Fin items.length,
      (handleEditItem (some i) c items).get
          (Fin.cast (handleEditItem_length i c items).symm k) =
        if (items.get k).id = i.id then withId c i.id else items.get k := by
  refine ⟨handleEditItem_length i c items, ?_⟩
  intro k
  simp [handleEditItem, List.get_eq_getElem, List.getElem_map]

/-- C10 witness: editing item2 of the demonstration dataset keeps item1 at
position 0 and puts the replacement at item2's position 1. -/
theorem update_frame_preserves_order_inst :
    (handleEditItem (some item2) c9Fields sampleData).length = sampleData.length ∧
    (handleEditItem (some item2) c9Fields sampleData).get
        (Fin.cast (handleEditItem_length item2 c9Fields sampleData).symm ⟨0, by decide⟩)
      = item1 ∧
    (handleEditItem (some item2) c9Fields sampleData).get
        (Fin.cast (handleEditItem_length item2 c9Fields sampleData).symm ⟨1, by decide⟩)
      = withId c9Fields item2.id := by
  have h := update_frame_preserves_order item2 c9Fields sampleData (by decide)
  refine ⟨h.1, ?_, ?_⟩
  · rw [h.2 ⟨0, by decide⟩]
    decide
  · rw [h.2 ⟨1, by decide⟩]
    decide

/-- ASCII lowering of one character, modelling what
`String.prototype.toLowerCase` does on the ASCII range (every string the
repository manipulates is ASCII). -/
def jsCharLower (c : Char) : Char :=
  if 65 ≤ c.toNat ∧ c.toNat ≤ 90 then Char.ofNat (c.toNat + 32) else c

/-- Character sequence of `s.toLowerCase()`. -/
def lowerData (s : String) : List Char := s.data.map jsCharLower

/-- The filter predicate of the search `useEffect`: the lowercased search term
must be a substring (`String.prototype.includes`) of the lowercased
`item_name`, `sku` or `category`. -/
def matchesSearch (term : String) (it : InventoryItem) : Bool :=
  decide (lowerData term <:+: lowerData it.item_name) ||
  decide (lowerData term <:+: lowerData it.sku) ||
  decide (lowerData term <:+: lowerData it.category)

/-- The derived `filteredItems` state: `items.filter(item => ...)`. -/
def filteredItems (term : String) (items : List InventoryItem) : List InventoryItem :=
  items.filter (matchesSearch term)

/-- C6: the filtered view contains exactly the items of the collection for
which the search term is a case-insensitive substring of the item name, the
SKU or the category (an item is kept when any of the three matches), and the
empty search term keeps every item. -/
theorem filter_membership_spec (term : String) (items : List InventoryItem)
    (i : InventoryItem) :
    (i ∈ filteredItems term items ↔
      i ∈ items ∧
        (lowerData term <:+: lowerData i.item_name ∨
         lowerData term <:+: lowerData i.sku ∨
         lowerData term <:+: lowerData i.category)) ∧
    filteredItems "" items = items := by
  constructor
  · simp [filteredItems, matchesSearch, List.mem_filter, or_assoc]
  · rw [filteredItems, List.filter_eq_self]
    intro a _
    have h0 : lowerData "" = [] := rfl
    simp [matchesSearch, h0]

/-- C6 witness: searching "glove" finds "Heavy Duty Work Gloves"
case-insensitively. -/
theorem filter_membership_spec_inst : item2 ∈ filteredItems "glove" sampleData :=
  (filter_membership_spec "glove" sampleData item2).1.mpr
    ⟨by decide, Or.inl (by decide)⟩

/-- Trimming of a character sequence: strip leading and trailing whitespace. -/
def trimChars (l : List Char) : List Char :=
  ((l.dropWhile Char.isWhitespace).reverse.dropWhile Char.isWhitespace).reverse

/-- Model of `String.prototype.trim` (ASCII whitespace). -/
def jsTrim (s : String) : String := String.mk (trimChars s.data)

/-- The `formData` state of `InventoryForm` (src/src/components/InventoryForm.tsx):
all inputs are held as strings except the two numeric fields, which the form
parses with `parseInt(...) || 0`. -/
structure FormData where
  sku : String
  item_name : String
  quantity_counted : Int
  unit_of_measure : String
  location_in_warehouse : String
  category : String
  condition_notes : String
  last_count_date : String
  reorder_level : Int
  supplier : String
  image_url : String
deriving DecidableEq

/-- The `newErrors` record built by `validateForm`: one optional message per
validated field; a field is in error exactly when its entry is `some`. -/
structure FormErrors where
  item_name : Option String
  quantity_counted : Option String
  reorder_level : Option String
  last_count_date : Option String
  category : Option String
deriving DecidableEq

/-- `validateForm` from `InventoryForm`: the relaxed validation policy.
`!x` on a JS string is truth exactly on the empty string, and the item-name
and custom-category checks trim first. -/
def validateForm (formData : FormData) (customCategory : String) : FormErrors :=
  { item_name :=
      if jsTrim formData.item_name = "" then some "Item name is required" else none
    quantity_counted :=
      if formData.quantity_counted < 0 then some "Quantity must be 0 or greater" else none
    reorder_level :=
      if formData.reorder_level < 0 then some "Reorder level must be 0 or greater" else none
    last_count_date :=
      if formData.last_count_date = "" then some "Last count date is required" else none
    category :=
      if formData.category = "" ∧ jsTrim customCategory = "" then
        some "Category is required"
      else none }

/-- `Object.keys(newErrors).length === 0`: no field produced an error entry. -/
def FormErrors.isEmpty (e : FormErrors) : Bool :=
  e.item_name.isNone && e.quantity_counted.isNone && e.reorder_level.isNone &&
    e.last_count_date.isNone && e.category.isNone

/-- `handleSubmit` from `InventoryForm`: when validation passes, submit the
form data with `category` resolved by
`const finalCategory = customCategory.trim() || formData.category`. Returns
`none` when validation rejects the submission. -/
def handleSubmit (formData : FormData) (customCategory : String) : Option FormData :=
  if (validateForm formData customCategory).isEmpty = true then
    some { formData with
      category :=
        if jsTrim customCategory ≠ "" then jsTrim customCategory else formData.category }
  else none

/-- Concrete valid form submission used in the C8 theorems. -/
def c8Form : FormData :=
  { sku := ""
    item_name := "Packing Tape"
    quantity_counted := 10
    unit_of_measure := ""
    location_in_warehouse := ""
    category := ""
    condition_notes := ""
    last_count_date := "2024-02-01"
    reorder_level := 2
    supplier := ""
    image_url := "" }

/-- C8 counterexample: a blank (non-empty) enumerated category " " with an
empty custom override produces no category error, though the claim requires
one; and a non-blank custom override " Custom Shelf " is submitted trimmed, as
"Custom Shelf", which differs from the override itself. -/
theorem category_validation_divergence :
    (validateForm { c8Form with category := " " } "").category = none ∧
    (handleSubmit c8Form " Custom Shelf ").map FormData.category = some "Custom Shelf" ∧
    some "Custom Shelf" ≠ some " Custom Shelf" := by
  refine ⟨by decide, by decide, by decide⟩

/-- C8 (amended): validation reports a category error exactly when the
enumerated selection is the empty string and the trimmed custom override is
empty; and whenever the custom override is non-blank, the submitted item's
category equals the trimmed custom override rather than the enumerated
selection. -/
theorem category_validation_spec (fd : FormData) (customCategory : String) :
    ((validateForm fd customCategory).category.isSome ↔
      fd.category = "" ∧ jsTrim customCategory = "") ∧
    (jsTrim customCategory ≠ "" →
      ∀ out, handleSubmit fd customCategory = some out →
        out.category = jsTrim customCategory) := by
  constructor
  · by_cases hc : fd.category = "" ∧ jsTrim customCategory = ""
    · simp [validateForm, if_pos hc, hc]
    · simp [validateForm, if_neg hc, hc]
  · intro h out hout
    by_cases he : (validateForm fd customCategory).isEmpty = true
    · rw [handleSubmit, if_pos he] at hout
      cases hout
      simp [if_pos h]
    · rw [handleSubmit, if_neg he] at hout
      cases hout

/-- C8 witness: an empty enumerated selection with an empty override is
rejected, and a non-blank override "Custom Shelf" becomes the submitted
category. -/
theorem category_validation_spec_inst :
    (validateForm c8Form "").category.isSome = true ∧
    ({ c8Form with category := "Custom Shelf" } : FormData).category
        = jsTrim "Custom Shelf" :=
  ⟨(category_validation_spec c8Form "").1.mpr ⟨rfl, rfl⟩,
   (category_validation_spec c8Form "Custom Shelf").2 (by decide)
     { c8Form with category := "Custom Shelf" } (by decide)⟩

/-- Sortable columns of the table (`type SortField` in `InventoryTable`). -/
inductive SortField where
  | item_name
  | sku
  | quantity_counted
  | category
  | last_count_date
deriving DecidableEq

/-- Sort direction (`type SortDirection`). -/
inductive SortDirection where
  | asc
  | desc
deriving DecidableEq

/-- Numeric value of an ASCII digit character. -/
def charDigit (c : Char) : Option Nat :=
  if 48 ≤ c.toNat ∧ c.toNat ≤ 57 then some (c.toNat - 48) else none

/-- Gregorian leap-year rule. -/
def isLeapYear (y : Nat) : Bool :=
  (y % 4 == 0 && y % 100 != 0) || y % 400 == 0

/-- Number of days in a month. -/
def daysInMonth (y m : Nat) : Nat :=
  if m = 2 then if isLeapYear y then 29 else 28
  else if m = 4 ∨ m = 6 ∨ m = 9 ∨ m = 11 then 30
  else 31

/-- Strict parse of a date string in the ISO form YYYY-MM-DD with an existing
calendar date, the format `new Date(...)` accepts for the repository's date
values; anything else makes `new Date(s).getTime()` evaluate to NaN. -/
def parseYMD (s : String) : Option (Nat × Nat × Nat) :=
  match s.data with
  | [y1, y2, y3, y4, s1, m1, m2, s2, d1, d2] =>
    if s1 = '-' ∧ s2 = '-' then
      match charDigit y1, charDigit y2, charDigit y3, charDigit y4,
          charDigit m1, charDigit m2, charDigit d1, charDigit d2 with
      | some a, some b, some c, some d, some e, some f, some g, some h =>
        let y := 1000 * a + 100 * b + 10 * c + d
        let m := 10 * e + f
        let dd := 10 * g + h
        if 1 ≤ m ∧ m ≤ 12 ∧ 1 ≤ dd ∧ dd ≤ daysInMonth y m then some (y, m, dd)
        else none
      | _, _, _, _, _, _, _, _ => none
    else none
  | _ => none

/-- Model of `new Date(s).getTime()` up to a strictly monotone transformation:
for valid ISO dates the millisecond timestamp is ordered exactly like the
(year, month, day) triple, here encoded as y*10000 + m*100 + d; an invalid
date gives NaN, modelled as `none`. Only comparisons of this value are
observable in the program. -/
def dateNumber (s : String) : Option Nat :=
  (parseYMD s).map fun t => t.1 * 10000 + t.2.1 * 100 + t.2.2

/-- Lexicographic strict comparison of character sequences by code point:
the semantics of `<` on JS strings (code-unit order, identical on the Basic
Multilingual Plane). -/
def lexLt : List Char → List Char → Bool
  | _, [] => false
  | [], _ :: _ => true
  | a :: as, b :: bs =>
    if a.toNat < b.toNat then true
    else if b.toNat < a.toNat then false
    else lexLt as bs

/-- Irreflexivity of the lexicographic comparison. -/
theorem lexLt_irrefl : ∀ l : List Char, lexLt l l = false
  | [] => rfl
  | a :: as => by simp [lexLt, lexLt_irrefl as]

/-- Transitivity of the lexicographic comparison. -/
theorem lexLt_trans : ∀ {x y z : List Char},
    lexLt x y = true → lexLt y z = true → lexLt x z = true
  | _, [], _, h1, _ => by simp [lexLt] at h1
  | x, _ :: _, [], _, h2 => by simp [lexLt] at h2
  | [], b :: bs, c :: cs, _, _ => by simp [lexLt]
  | a :: as, b :: bs, c :: cs, h1, h2 => by
    simp only [lexLt] at h1 h2 ⊢
    split_ifs at h1 h2 ⊢ <;> first
      | rfl
      | omega
      | exact lexLt_trans h1 h2

/-- Two character sequences neither of which is lexicographically below the
other are equal. -/
theorem lexLt_eq_of_not : ∀ {x y : List Char},
    lexLt x y = false → lexLt y x = false → x = y
  | [], [], _, _ => rfl
  | [], _ :: _, h1, _ => by simp [lexLt] at h1
  | _ :: _, [], _, h2 => by simp [lexLt] at h2
  | a :: as, b :: bs, h1, h2 => by
    by_cases hab : a.toNat < b.toNat
    · simp only [lexLt, if_pos hab] at h1
      cases h1
    · by_cases hba : b.toNat < a.toNat
      · simp only [lexLt, if_pos hba] at h2
        cases h2
      · have hchar : a = b :=
          Char.eq_of_val_eq (UInt32.ext (show a.toNat = b.toNat by omega))
        simp only [lexLt, if_neg hab, if_neg hba] at h1
        simp only [lexLt, if_neg hba, if_neg hab] at h2
        rw [hchar, lexLt_eq_of_not h1 h2]

/-- Negative transitivity of the lexicographic comparison. -/
theorem lexLt_negTrans {a b c : List Char} (h1 : lexLt b a = false)
    (h2 : lexLt c b = false) : lexLt c a = false := by
  cases hca : lexLt c a with
  | false => rfl
  | true =>
    exfalso
    cases hbc : lexLt b c with
    | true => rw [lexLt_trans hbc hca] at h1; cases h1
    | false =>
      have heq : b = c := lexLt_eq_of_not hbc h2
      rw [heq, hca] at h1
      cases h1

/-- The strict "aValue < bValue" test of the table comparator, after the
per-field value conversion: `Number(...)` for the quantity,
`new Date(...).getTime()` for the date (any comparison with NaN is false),
and `String(...).toLowerCase()` for the remaining fields. -/
def fieldLt (field : SortField) (a b : InventoryItem) : Bool :=
  match field with
  | .quantity_counted => decide (a.quantity_counted < b.quantity_counted)
  | .last_count_date =>
    match dateNumber a.last_count_date, dateNumber b.last_count_date with
    | some x, some y => decide (x < y)
    | _, _ => false
  | .item_name => lexLt (lowerData a.item_name) (lowerData b.item_name)
  | .sku => lexLt (lowerData a.sku) (lowerData b.sku)
  | .category => lexLt (lowerData a.category) (lowerData b.category)

/-- The comparator of `sortedItems` in `InventoryTable`:
`if (aValue < bValue) return sortDirection === 'asc' ? -1 : 1;`
`if (aValue > bValue) return sortDirection === 'asc' ? 1 : -1;`
`return 0;`. -/
def compareItems (field : SortField) (dir : SortDirection) (a b : InventoryItem) : Int :=
  if fieldLt field a b then match dir with | .asc => -1 | .desc => 1
  else if fieldLt field b a then match dir with | .asc => 1 | .desc => -1
  else 0

/-- The ordering relation induced by the comparator: the pairs the sorted
output may present in this order. -/
def sortLe (field : SortField) (dir : SortDirection) (a b : InventoryItem) : Prop :=
  compareItems field dir a b ≤ 0

instance (field : SortField) (dir : SortDirection) : DecidableRel (sortLe field dir) :=
  fun a b => inferInstanceAs (Decidable (compareItems field dir a b ≤ 0))

/-- Model of `[...items].sort(comparator)`: the ECMAScript specification
requires `Array.prototype.sort` to be stable and, for a consistent comparator,
to produce an order on which the comparator is never positive; the unique such
permutation is computed by a stable insertion sort on the comparator's
non-positive relation. -/
def sortedItems (field : SortField) (dir : SortDirection)
    (items : List InventoryItem) : List InventoryItem :=
  List.insertionSort (sortLe field dir) items

/-- Transitivity of the strict per-field comparison. -/
theorem fieldLt_trans {field : SortField} {a b c : InventoryItem}
    (h1 : fieldLt field a b = true) (h2 : fieldLt field b c = true) :
    fieldLt field a c = true := by
  cases field
  case item_name => exact lexLt_trans h1 h2
  case sku => exact lexLt_trans h1 h2
  case category => exact lexLt_trans h1 h2
  case quantity_counted =>
    simp only [fieldLt, decide_eq_true_eq] at h1 h2 ⊢
    omega
  case last_count_date =>
    simp only [fieldLt] at h1 h2 ⊢
    cases ha : dateNumber a.last_count_date <;> rw [ha] at h1
    · cases h1
    · cases hb : dateNumber b.last_count_date <;> rw [hb] at h1 h2
      · cases h1
      · cases hc : dateNumber c.last_count_date <;> rw [hc] at h2
        · cases h2
        · simp only [decide_eq_true_eq] at h1 h2 ⊢
          omega

/-- Irreflexivity of the strict per-field comparison. -/
theorem fieldLt_irrefl (field : SortField) (a : InventoryItem) :
    fieldLt field a a = false := by
  cases field
  case item_name => exact lexLt_irrefl _
  case sku => exact lexLt_irrefl _
  case category => exact lexLt_irrefl _
  case quantity_counted => simp [fieldLt]
  case last_count_date =>
    simp only [fieldLt]
    cases dateNumber a.last_count_date <;> simp

/-- Asymmetry of the strict per-field comparison. -/
theorem fieldLt_asymm {field : SortField} {a b : InventoryItem}
    (h : fieldLt field a b = true) : fieldLt field b a = false := by
  cases hba : fieldLt field b a with
  | false => rfl
  | true =>
    have := fieldLt_trans h hba
    rw [fieldLt_irrefl] at this
    cases this

/-- Totalized variant of `fieldLt` used only inside proofs: on the date field
it compares the date encodings with missing dates defaulted, which coincides
with `fieldLt` whenever both dates are valid. -/
def fieldLtFix (field : SortField) (a b : InventoryItem) : Bool :=
  match field with
  | .last_count_date =>
    decide ((dateNumber a.last_count_date).getD 0 < (dateNumber b.last_count_date).getD 0)
  | f => fieldLt f a b

/-- Date validity guard: trivial for every field except the date column, where
it requires the item's date string to denote a calendar date. -/
def validFor (field : SortField) (it : InventoryItem) : Prop :=
  field = SortField.last_count_date → (dateNumber it.last_count_date).isSome = true

/-- On items whose dates are valid, the comparator's strict test agrees with
its totalized variant. -/
theorem fieldLt_eq_fix (field : SortField) (a b : InventoryItem)
    (ha : validFor field a) (hb : validFor field b) :
    fieldLt field a b = fieldLtFix field a b := by
  cases field
  case item_name => rfl
  case sku => rfl
  case category => rfl
  case quantity_counted => rfl
  case last_count_date =>
    obtain ⟨x, hx⟩ := Option.isSome_iff_exists.mp (ha rfl)
    obtain ⟨y, hy⟩ := Option.isSome_iff_exists.mp (hb rfl)
    simp [fieldLt, fieldLtFix, hx, hy]

/-- Irreflexivity of the totalized strict test. -/
theorem fieldLtFix_irrefl (field : SortField) (a : InventoryItem) :
    fieldLtFix field a a = false := by
  cases field
  case last_count_date => simp [fieldLtFix]
  all_goals simp only [fieldLtFix]
  all_goals exact fieldLt_irrefl _ _

/-- Transitivity of the totalized strict test. -/
theorem fieldLtFix_trans {field : SortField} {a b c : InventoryItem}
    (h1 : fieldLtFix field a b = true) (h2 : fieldLtFix field b c = true) :
    fieldLtFix field a c = true := by
  cases field
  case last_count_date =>
    simp only [fieldLtFix, decide_eq_true_eq] at h1 h2 ⊢
    omega
  all_goals simp only [fieldLtFix] at h1 h2 ⊢
  all_goals exact fieldLt_trans h1 h2

/-- Asymmetry of the totalized strict test. -/
theorem fieldLtFix_asymm {field : SortField} {a b : InventoryItem}
    (h : fieldLtFix field a b = true) : fieldLtFix field b a = false := by
  cases hba : fieldLtFix field b a with
  | false => rfl
  | true =>
    have := fieldLtFix_trans h hba
    rw [fieldLtFix_irrefl] at this
    cases this

/-- Negative transitivity of the totalized strict test. -/
theorem fieldLtFix_negTrans {field : SortField} {a b c : InventoryItem}
    (h1 : fieldLtFix field b a = false) (h2 : fieldLtFix field c b = false) :
    fieldLtFix field c a = false := by
  cases field
  case item_name => exact lexLt_negTrans h1 h2
  case sku => exact lexLt_negTrans h1 h2
  case category => exact lexLt_negTrans h1 h2
  case quantity_counted =>
    simp only [fieldLtFix, fieldLt, decide_eq_false_iff_not] at h1 h2 ⊢
    omega
  case last_count_date =>
    simp only [fieldLtFix, decide_eq_false_iff_not] at h1 h2 ⊢
    omega

/-- The comparator is non-positive exactly when the reversed strict test (in
the active direction) fails. -/
theorem sortLe_iff (field : SortField) (dir : SortDirection) (a b : InventoryItem) :
    sortLe field dir a b ↔
      (match dir with
       | .asc => fieldLt field b a = false
       | .desc => fieldLt field a b = false) := by
  unfold sortLe compareItems
  by_cases hab : fieldLt field a b = true
  · rw [if_pos hab, fieldLt_asymm hab]
    cases dir <;> simp [hab]
  · rw [if_neg hab]
    replace hab := Bool.of_not_eq_true hab
    by_cases hba : fieldLt field b a = true
    · rw [if_pos hba]
      cases dir <;> simp [hab, hba]
    · replace hba := Bool.of_not_eq_true hba
      rw [if_neg (by simp [hba])]
      cases dir <;> simp [hab, hba]

/-- The comparator is zero exactly when neither side is strictly below the
other. -/
theorem compareItems_eq_zero (field : SortField) (dir : SortDirection)
    (a b : InventoryItem) :
    compareItems field dir a b = 0 ↔
      fieldLt field a b = false ∧ fieldLt field b a = false := by
  unfold compareItems
  by_cases hab : fieldLt field a b = true
  · rw [if_pos hab]
    cases dir <;> simp [hab]
  · replace hab := Bool.of_not_eq_true hab
    rw [if_neg (by simp [hab])]
    by_cases hba : fieldLt field b a = true
    · rw [if_pos hba]
      cases dir <;> simp [hab, hba]
    · replace hba := Bool.of_not_eq_true hba
      rw [if_neg (by simp [hba])]
      simp [hab, hba]

/-- The totalized ordering relation used to transport sortedness. -/
def fixLe (field : SortField) (dir : SortDirection) (a b : InventoryItem) : Prop :=
  match dir with
  | .asc => fieldLtFix field b a = false
  | .desc => fieldLtFix field a b = false

instance (field : SortField) (dir : SortDirection) : DecidableRel (fixLe field dir) :=
  fun a b => by unfold fixLe; cases dir <;> exact inferInstance

/-- On items with valid dates, the comparator relation and the totalized
relation coincide. -/
theorem sortLe_iff_fixLe (field : SortField) (dir : SortDirection)
    (a b : InventoryItem) (ha : validFor field a) (hb : validFor field b) :
    sortLe field dir a b ↔ fixLe field dir a b := by
  rw [sortLe_iff]
  unfold fixLe
  cases dir
  · rw [fieldLt_eq_fix field b a hb ha]
  · rw [fieldLt_eq_fix field a b ha hb]

/-- Totality of the totalized relation. -/
theorem fixLe_total (field : SortField) (dir : SortDirection) (a b : InventoryItem) :
    fixLe field dir a b ∨ fixLe field dir b a := by
  unfold fixLe
  cases dir <;>
  · cases hab : fieldLtFix field a b with
    | true => simp [fieldLtFix_asymm hab]
    | false => simp [hab]

/-- Transitivity of the totalized relation. -/
theorem fixLe_trans (field : SortField) (dir : SortDirection) {a b c : InventoryItem}
    (h1 : fixLe field dir a b) (h2 : fixLe field dir b c) : fixLe field dir a c := by
  unfold fixLe at h1 h2 ⊢
  cases dir
  · exact fieldLtFix_negTrans h1 h2
  · exact fieldLtFix_negTrans h2 h1

/-- Ordered insertion only queries the relation between the inserted element
and members of the list, so relations agreeing there insert identically. -/
theorem orderedInsert_congr {α : Type} {r s : α → α → Prop}
    [DecidableRel r] [DecidableRel s] (a : α) (l : List α)
    (h : ∀ b ∈ l, r a b ↔ s a b) :
    l.orderedInsert r a = l.orderedInsert s a := by
  induction l with
  | nil => rfl
  | cons b bs ih =>
    simp only [List.orderedInsert]
    by_cases hr : r a b
    · rw [if_pos hr, if_pos ((h b (by simp)).mp hr)]
    · rw [if_neg hr, if_neg (fun hs => hr ((h b (by simp)).mpr hs)),
        ih (fun x hx => h x (by simp [hx]))]

/-- Insertion sort only queries the relation between members of the list, so
relations agreeing on the list sort it identically. -/
theorem insertionSort_congr {α : Type} {r s : α → α → Prop}
    [DecidableRel r] [DecidableRel s] (l : List α)
    (h : ∀ a ∈ l, ∀ b ∈ l, r a b ↔ s a b) :
    l.insertionSort r = l.insertionSort s := by
  induction l with
  | nil => rfl
  | cons a as ih =>
    simp only [List.insertionSort]
    rw [ih (fun x hx y hy => h x (by simp [hx]) y (by simp [hy]))]
    exact orderedInsert_congr a _
      (fun b hb => h a (by simp) b
        (by simp [(List.mem_insertionSort s).mp hb]))

/-- The sorted output of the totalized relation is pairwise related by it. -/
theorem pairwise_insertionSort_fixLe (field : SortField) (dir : SortDirection)
    (items : List InventoryItem) :
    (List.insertionSort (fixLe field dir) items).Pairwise (fixLe field dir) := by
  haveI : IsTotal InventoryItem (fixLe field dir) := ⟨fixLe_total field dir⟩
  haveI : IsTrans InventoryItem (fixLe field dir) := ⟨fun _ _ _ => fixLe_trans field dir⟩
  exact List.sorted_insertionSort (fixLe field dir) items

/-- Equality of the active sort keys of two items: equal converted values in
the comparator's sense. -/
def sameKey (field : SortField) (a b : InventoryItem) : Bool :=
  match field with
  | .quantity_counted => decide (a.quantity_counted = b.quantity_counted)
  | .last_count_date => decide (dateNumber a.last_count_date = dateNumber b.last_count_date)
  | .item_name => decide (lowerData a.item_name = lowerData b.item_name)
  | .sku => decide (lowerData a.sku = lowerData b.sku)
  | .category => decide (lowerData a.category = lowerData b.category)

/-- Items with equal sort keys compare as zero. -/
theorem sameKey_compare_eq_zero {field : SortField} (dir : SortDirection)
    {a b : InventoryItem} (h : sameKey field a b = true) :
    compareItems field dir a b = 0 := by
  rw [compareItems_eq_zero]
  cases field
  case quantity_counted =>
    simp only [sameKey, decide_eq_true_eq] at h
    simp [fieldLt, h]
  case item_name =>
    simp only [sameKey, decide_eq_true_eq] at h
    simp only [fieldLt, h]
    exact ⟨lexLt_irrefl _, lexLt_irrefl _⟩
  case sku =>
    simp only [sameKey, decide_eq_true_eq] at h
    simp only [fieldLt, h]
    exact ⟨lexLt_irrefl _, lexLt_irrefl _⟩
  case category =>
    simp only [sameKey, decide_eq_true_eq] at h
    simp only [fieldLt, h]
    exact ⟨lexLt_irrefl _, lexLt_irrefl _⟩
  case last_count_date =>
    simp only [sameKey, decide_eq_true_eq] at h
    simp only [fieldLt, h]
    cases dateNumber b.last_count_date <;> simp

/-- Key equality is transitive through a common pivot. -/
theorem sameKey_of_pivot {field : SortField} {x y pv : InventoryItem}
    (hx : sameKey field x pv = true) (hy : sameKey field y pv = true) :
    sameKey field x y = true := by
  cases field <;>
    simp only [sameKey, decide_eq_true_eq] at hx hy ⊢ <;>
    rw [hx, hy]

/-- The ordering the claim attributes to each column: numeric for the
quantity, calendar-date value for the last-count date, case-insensitive
lexicographic for the string columns, reversed when descending. -/
def keyOrdered (field : SortField) (dir : SortDirection) (a b : InventoryItem) : Prop :=
  match field, dir with
  | .quantity_counted, .asc => a.quantity_counted ≤ b.quantity_counted
  | .quantity_counted, .desc => b.quantity_counted ≤ a.quantity_counted
  | .last_count_date, .asc =>
    (dateNumber a.last_count_date).getD 0 ≤ (dateNumber b.last_count_date).getD 0
  | .last_count_date, .desc =>
    (dateNumber b.last_count_date).getD 0 ≤ (dateNumber a.last_count_date).getD 0
  | .item_name, .asc => lexLt (lowerData b.item_name) (lowerData a.item_name) = false
  | .item_name, .desc => lexLt (lowerData a.item_name) (lowerData b.item_name) = false
  | .sku, .asc => lexLt (lowerData b.sku) (lowerData a.sku) = false
  | .sku, .desc => lexLt (lowerData a.sku) (lowerData b.sku) = false
  | .category, .asc => lexLt (lowerData b.category) (lowerData a.category) = false
  | .category, .desc => lexLt (lowerData a.category) (lowerData b.category) = false

/-- The totalized relation implies the claimed per-column ordering. -/
theorem fixLe_imp_keyOrdered {field : SortField} {dir : SortDirection}
    {a b : InventoryItem} (h : fixLe field dir a b) : keyOrdered field dir a b := by
  cases field <;> cases dir <;>
    simp only [fixLe, fieldLtFix, fieldLt, keyOrdered,
      decide_eq_false_iff_not, not_lt] at h ⊢ <;>
    exact h

/-- C7: the sorted view is a permutation of its input, consecutive entries are
ordered by the active column's semantics — numeric for `quantity_counted`,
calendar-date value for `last_count_date` (given that the items carry valid
dates; on invalid dates the JS comparator is inconsistent and the sort order
is unspecified), case-insensitive lexicographic for `item_name`, `sku` and
`category`, each reversed for descending — and the sort is stable: the
subsequence of items sharing any fixed sort key is exactly the input's
subsequence with that key. -/
theorem sort_semantics_and_stable (items : List InventoryItem) (field : SortField)
    (dir : SortDirection)
    (hd : field = SortField.last_count_date →
      ∀ i ∈ items, (dateNumber i.last_count_date).isSome = true) :
    (sortedItems field dir items).Perm items ∧
    (sortedItems field dir items).Pairwise (keyOrdered field dir) ∧
    ∀ pv : InventoryItem,
      (sortedItems field dir items).filter (fun x => sameKey field x pv) =
        items.filter (fun x => sameKey field x pv) := by
  have hvalid : ∀ i ∈ items, validFor field i := fun i hi h => hd h i hi
  refine ⟨List.perm_insertionSort _ items, ?_, ?_⟩
  · have he : sortedItems field dir items
        = List.insertionSort (fixLe field dir) items := by
      unfold sortedItems
      exact insertionSort_congr items
        (fun a ha b hb => sortLe_iff_fixLe field dir a b (hvalid a ha) (hvalid b hb))
    rw [he]
    exact (pairwise_insertionSort_fixLe field dir items).imp
      (fun h => fixLe_imp_keyOrdered h)
  · intro pv
    have hsub : (items.filter (fun x => sameKey field x pv)).Sublist items :=
      List.filter_sublist items
    have hpw : (items.filter (fun x => sameKey field x pv)).Pairwise
        (sortLe field dir) := by
      apply List.pairwise_of_forall_mem_list
      intro x hx y hy
      have hxy : sameKey field x y = true :=
        sameKey_of_pivot (List.mem_filter.mp hx).2 (List.mem_filter.mp hy).2
      unfold sortLe
      rw [sameKey_compare_eq_zero dir hxy]
    have h1 : (items.filter (fun x => sameKey field x pv)).Sublist
        (sortedItems field dir items) :=
      List.sublist_insertionSort hpw hsub
    have h2 : (items.filter (fun x => sameKey field x pv)).filter
          (fun x => sameKey field x pv)
        = items.filter (fun x => sameKey field x pv) :=
      List.filter_eq_self.mpr (fun a ha => (List.mem_filter.mp ha).2)
    have h3 := List.Sublist.filter (fun x => sameKey field x pv) h1
    rw [h2] at h3
    have h4 : ((sortedItems field dir items).filter (fun x => sameKey field x pv)).Perm
        (items.filter (fun x => sameKey field x pv)) :=
      (List.perm_insertionSort (sortLe field dir) items).filter _
    exact (h3.eq_of_length h4.length_eq.symm).symm

/-- C7 witness: sorting the demonstration dataset (all of whose dates are
valid ISO dates) by last-count date ascending permutes it. -/
theorem sort_semantics_and_stable_inst :
    (sortedItems SortField.last_count_date SortDirection.asc sampleData).Perm
      sampleData :=
  (sort_semantics_and_stable sampleData SortField.last_count_date SortDirection.asc
    (fun _ => by decide)).1
